import Mathlib

/-!
Verification of the barber-bot scheduling core.

Shallow embedding of the Python sources of the repository:
  app/services/calendar.py  (CalendarService)
  app/logic/booking.py      (BookingManager)
  app/logic/intent_router.py (IntentRouter)

Modelling conventions:
* Time instants are integers counting whole seconds on the naive-datetime
  timeline the source uses.  The source only ever builds instants from
  HH:MM configuration fields, whole-day offsets (timedelta(days=k)) and
  whole-minute durations, so whole-second granularity is exact.  A calendar
  day spans 86400 seconds and day boundaries sit at multiples of 86400.
* The remote Google Calendar and the clock are an explicit environment
  (`Env`): the busy-interval read and the event insert are oracle functions
  whose `none` result models an HttpError; `serviceInit = false` models a
  CalendarService whose client failed to initialize.
* Python dict results of BookingManager.create_booking are association
  lists over a value type `Val`; dict lookup is modelled by `dictGet`.
* The side effects of a call (create-event calls issued, history windows
  handed to the Q&A model) are returned as explicit logs.
-/

/-- Calendar-day number of an instant (`datetime.date()` comparison key).
    `Int.ediv` floors for the positive divisor 86400. -/
def dayIndex (t : Int) : Int := t.ediv 86400

/-- `date.replace(hour=0, minute=0, second=0, microsecond=0)`:
    midnight of the day containing `t`. -/
def dayStartOf (t : Int) : Int := 86400 * dayIndex t

/-- The Python `l[-n:]` slice (the most recent `n` elements; the whole list
    when it is shorter than `n`). -/
def lastN (n : Nat) (l : List α) : List α := l.drop (l.length - n)

/-- A busy interval fetched from the remote calendar: the parsed
    start / end instants of one existing event. -/
structure Busy where
  start : Int
  stop : Int
  deriving DecidableEq

/-- External environment of one call into the core: the wall clock
    (`datetime.now()`), whether the Google client initialized, the remote
    events().list read over a [timeMin, timeMax] range (`none` = HttpError)
    and the remote events().insert call keyed by the event start instant
    (`none` = HttpError). -/
structure Env where
  now : Int
  serviceInit : Bool
  events : Int → Int → Option (List Busy)
  createEvent : Int → Option String

/-- Parsed business-hours configuration: the (hour, minute) fields of the
    semicolon-split BARBER_BUSINESS_HOURS_START / _END strings, pairwise per
    block.  A str.split on the semicolon always yields at least one field, so every
    configuration the source can produce is nonempty; parsing itself
    (int of the colon-split fields) is outside the model. -/
structure HoursConfig where
  startTimes : List (Nat × Nat)
  endTimes : List (Nat × Nat)

/-- Offset of an (hour, minute) pair from midnight, in seconds
    (`date.replace(hour=h, minute=m, second=0, microsecond=0)`). -/
def hmOffset (p : Nat × Nat) : Int := (p.1 : Int) * 3600 + (p.2 : Int) * 60

/-- The slot-emitting while loop of CalendarService.get_available_slots:
    `current = block_start; while current + duration <= block_end: emit;
    current += duration`.  For a non-positive duration the source loop never
    terminates, so the embedding is meaningful for `0 < dur` (the source
    always passes a positive minute count times 60). -/
def genSlotsBlock (dur : Int) (blockStart blockEnd : Int) : List Int :=
  if 0 < dur ∧ blockStart + dur ≤ blockEnd then
    blockStart :: genSlotsBlock dur (blockStart + dur) blockEnd
  else []
termination_by (blockEnd - blockStart).toNat
decreasing_by omega

/-- Closed-form iteration count of the slot loop, used to characterize
    `genSlotsBlock`. -/
def numSlots (dur bs be : Int) : Nat :=
  if bs + dur ≤ be then ((be - bs - dur).toNat / dur.toNat) + 1 else 0

/-- The conflict test of CalendarService.get_available_slots:
    `slot < event_end and slot_end > event_start` with
    `slot_end = slot + duration`. -/
def slotConflicts (dur slot : Int) (ev : Busy) : Bool :=
  decide (slot < ev.stop) && decide (slot + dur > ev.start)

/-- The per-slot event loop: the slot survives iff no existing event
    conflicts with it (the source sets `is_available = False` and breaks on
    the first conflict). -/
def isAvailableSlot (dur : Int) (events : List Busy) (slot : Int) : Bool :=
  events.all (fun ev => ! slotConflicts dur slot ev)

/-- CalendarService.get_available_slots (calendar.py:97-185).
    Returns [] when the service is uninitialized, when the split
    business-hours lists have mismatched lengths, or when the events().list
    call fails; otherwise generates the slots of every block and filters out
    those conflicting with an existing event.  The `| _, _ => []` arm covers
    the empty-blocks case, which no source configuration reaches
    (a split always yields at least one field; the source would raise on
    `time_blocks[0]`). -/
def CalendarService.get_available_slots (env : Env) (cfg : HoursConfig)
    (slotDurationMinutes : Nat) (date : Int) : List Int :=
  if !env.serviceInit then []
  else if cfg.startTimes.length ≠ cfg.endTimes.length then []
  else
    let timeBlocks := (cfg.startTimes.zip cfg.endTimes).map
      (fun p => (dayStartOf date + hmOffset p.1, dayStartOf date + hmOffset p.2))
    match timeBlocks.head?, timeBlocks.getLast? with
    | some first, some last =>
      match env.events first.1 last.2 with
      | none => []
      | some events =>
        let allSlots := timeBlocks.flatMap
          (fun b => genSlotsBlock ((slotDurationMinutes : Int) * 60) b.1 b.2)
        allSlots.filter (isAvailableSlot ((slotDurationMinutes : Int) * 60) events)
    | _, _ => []

/-- CalendarService.create_appointment (calendar.py:37-95): returns the
    remote event id, or `none` when the service is uninitialized or the
    insert call fails.  The event body built from the customer fields does
    not influence the returned id and is not modelled. -/
def CalendarService.create_appointment (env : Env) (startTime : Int) : Option String :=
  if !env.serviceInit then none
  else env.createEvent startTime

/-- The contribution of one day inside the loop of
    BookingManager.get_available_slots (booking.py:36-58): skip the day when
    its date is strictly before today, otherwise fetch that day and
    keep only those strictly in the future.  The source renders each kept
    slot as a dict {datetime, formatted, short}; the model keeps the
    `datetime` field, of which the two strings are fixed renderings. -/
def BookingManager.day_slots (env : Env) (cfg : HoursConfig) (durMin : Nat)
    (requestedDate : Int) (dayOffset : Nat) : List Int :=
  let checkDate := requestedDate + (dayOffset : Int) * 86400
  if dayIndex checkDate < dayIndex env.now then []
  else
    (CalendarService.get_available_slots env cfg durMin checkDate).filter
      (fun slot => decide (env.now < slot))

/-- The full (untruncated) list accumulated by
    BookingManager.get_available_slots before its final `[:5]` slice:
    the per-day contributions concatenated in day order. -/
def BookingManager.all_slots (env : Env) (cfg : HoursConfig) (durMin : Nat)
    (requestedDate : Int) (numDays : Nat) : List Int :=
  (List.range numDays).flatMap (BookingManager.day_slots env cfg durMin requestedDate)

/-- BookingManager.get_available_slots (booking.py:19-60):
    `return available_slots[:5]`. -/
def BookingManager.get_available_slots (env : Env) (cfg : HoursConfig) (durMin : Nat)
    (requestedDate : Int) (numDays : Nat) : List Int :=
  (BookingManager.all_slots env cfg durMin requestedDate numDays).take 5

/-- Values stored in the Python dicts the booking layer passes around. -/
inductive Val where
  | str (s : String)
  | bool (b : Bool)
  | time (t : Int)
  deriving DecidableEq

/-- A Python dict with string keys, as an association list.  All dicts the
    source builds are literals with distinct keys, so first-match lookup is
    exact. -/
abbrev Dict := List (String × Val)

/-- `d.get(key)` / `d[key]` lookup (the source never hits a KeyError: every
    key it indexes is present in every dict it builds). -/
def dictGet : Dict → String → Option Val
  | [], _ => none
  | (k, v) :: rest, key => if k = key then some v else dictGet rest key

/-- The rejection dict of booking.py:98-102. -/
def timeNotAvailableDict : Dict :=
  [("success", Val.bool false), ("error", Val.str "time_not_available"),
   ("message", Val.str "Sorry, that time slot is no longer available.")]

/-- The backend-failure dict of booking.py:124-128. -/
def calendarErrorDict : Dict :=
  [("success", Val.bool false), ("error", Val.str "calendar_error"),
   ("message", Val.str "Sorry, there was an error creating your appointment.")]

/-- The success dict of booking.py:115-121. -/
def successDict (eventId : String) (appointmentTime : Int)
    (customerName serviceType : String) : Dict :=
  [("success", Val.bool true), ("event_id", Val.str eventId),
   ("appointment_time", Val.time appointmentTime),
   ("customer_name", Val.str customerName), ("service_type", Val.str serviceType)]

/-- BookingManager.create_booking (booking.py:62-128).  Returns the result
    dict together with the list of start times passed to
    calendar_service.create_appointment (the create-event effect trace:
    empty on rejection, a single call otherwise). -/
def BookingManager.create_booking (env : Env) (cfg : HoursConfig) (durMin : Nat)
    (appointmentTime : Int) (customerName serviceType : String) :
    Dict × List Int :=
  let checkDate := dayStartOf appointmentTime
  let availableSlots := CalendarService.get_available_slots env cfg durMin checkDate
  let is_available :=
    availableSlots.any (fun slot => decide ((slot - appointmentTime).natAbs < 60))
  if !is_available then (timeNotAvailableDict, [])
  else
    match CalendarService.create_appointment env appointmentTime with
    | some eventId =>
      (successDict eventId appointmentTime customerName serviceType, [appointmentTime])
    | none => (calendarErrorDict, [appointmentTime])

/-- The reply kinds of ResponseGenerator as used by the router.  The source
    draws the final text at random from fixed nonempty template lists; only
    the kind of reply (and the data interpolated into it) is part of the
    behavior of the core. -/
inductive Reply where
  | greeting
  | askDatetime
  | availability (slots : List Int)
  | confirmation (t : Int) (eventId : Option String)
  | bookingError
  | clarifyTime
  | cancellation
  | fallback
  | answer (text : String)
  deriving DecidableEq

/-- One history entry {"role": ..., "content": ...}: a user turn holds the
    inbound message text, an assistant turn the outbound reply. -/
inductive Turn where
  | user (message : String)
  | assistant (response : Reply)
  deriving DecidableEq

/-- The per-user conversation dict of intent_router.py:36-41. -/
structure ConvState where
  stage : String
  history : List Turn
  booking_data : Dict
  deriving DecidableEq

/-- The lazily created initial state: {"stage": "initial", "history": [],
    "booking_data": {}}. -/
def initState : ConvState := { stage := "initial", history := [], booking_data := [] }

/-- Whether the first character list is a prefix of the second. -/
def startsWithChars : List Char → List Char → Bool
  | [], _ => true
  | _ :: _, [] => false
  | c :: cs, d :: ds => decide (c = d) && startsWithChars cs ds

/-- The Python `needle in hay` test on strings: contiguous substring containment
    over the character sequence. -/
def substringOf (needle : List Char) : List Char → Bool
  | [] => startsWithChars needle []
  | c :: rest => startsWithChars needle (c :: rest) || substringOf needle rest

/-- The keyword test of IntentRouter. extract_confirmed_time
    (intent_router.py:210-211): `any(word in message_text.lower() for word
    in [...])`.  lower() is per-character for the ASCII keywords involved. -/
def hasConfirmWord (messageText : String) : Bool :=
  ["yes", "confirm", "book", "that works", "sounds good"].any
    (fun w => substringOf w.data (messageText.data.map Char.toLower))

/-- IntentRouter. extract_confirmed_time (intent_router.py:204-216):
    on a confirmation keyword, return
    `state.get("booking_data", \x7b\x7d).get("proposed_time")` (the
    conversation dict always has the booking_data key), else None. -/
def IntentRouter.extract_confirmed_time (messageText : String) (state : ConvState) :
    Option Val :=
  if hasConfirmWord messageText then dictGet state.booking_data "proposed_time"
  else none

/-- A Python exception escaping the handler.  The only uncaught raise inside
    the modelled region occurs if a non-datetime value stored under
    proposed_time flows into create_booking (shown unreachable below). -/
inductive PyErr where
  | typeError
  deriving DecidableEq

/-- Effect trace of one handled message: create_booking calls made
    (appointment time and result dict), and history windows handed to the
    Q&A collaborator. -/
structure StepLog where
  bookings : List (Int × Dict)
  qaContexts : List (List Turn)
  deriving DecidableEq

/-- External inputs of one route_message call: the inbound text, the intent
    label the classifier returned (the source lower-cases and strips it, and
    degrades to "other" on a classifier failure), the extracted date/time if
    any, the text from the Q&A collaborator (it catches its own errors), and the
    calendar/clock environment. -/
structure StepIn where
  message : String
  intent : String
  dateInfo : Option Int
  qaAnswer : String
  env : Env

/-- IntentRouter. handle_intent (intent_router.py:102-165).  The state
    argument is the conversation dict after the inbound turn was appended;
    `customer_name` is never stored in that dict, so
    `state.get("customer_name", "Customer")` is the constant "Customer". -/
def IntentRouter.handle_intent (cfg : HoursConfig) (durMin : Nat)
    (inp : StepIn) (state : ConvState) : Except PyErr (Reply × ConvState × StepLog) :=
  if inp.intent = "greeting" then
    .ok (.greeting, { state with stage := "greeted" }, ⟨[], []⟩)
  else if inp.intent = "booking_inquiry" then
    match inp.dateInfo with
    | some dateInfo =>
      let available_slots := BookingManager.get_available_slots inp.env cfg durMin dateInfo 3
      .ok (.availability available_slots, { state with stage := "showing_availability" },
        ⟨[], []⟩)
    | none =>
      .ok (.askDatetime, { state with stage := "asking_datetime" }, ⟨[], []⟩)
  else if inp.intent = "confirm_booking" ∧
      (state.stage = "showing_availability" ∨ state.stage = "awaiting_confirmation") then
    match IntentRouter.extract_confirmed_time inp.message state with
    | some (Val.time confirmedSlot) =>
      let r := BookingManager.create_booking inp.env cfg durMin confirmedSlot
        "Customer" "Haircut"
      if dictGet r.1 "success" = some (Val.bool true) then
        let eventId := match dictGet r.1 "event_id" with
          | some (Val.str s) => some s
          | _ => none
        .ok (.confirmation confirmedSlot eventId,
          { state with stage := "completed", booking_data := r.1 },
          ⟨[(confirmedSlot, r.1)], []⟩)
      else
        .ok (.bookingError, state, ⟨[(confirmedSlot, r.1)], []⟩)
    | some _ => .error .typeError
    | none =>
      .ok (.clarifyTime, { state with stage := "awaiting_confirmation" }, ⟨[], []⟩)
  else if inp.intent = "cancel_booking" then
    .ok (.cancellation, { state with stage := "cancelled" }, ⟨[], []⟩)
  else if inp.intent = "general_question" then
    .ok (.answer inp.qaAnswer, state, ⟨[], [lastN 4 state.history]⟩)
  else
    .ok (.fallback, state, ⟨[], []⟩)

/-- IntentRouter.route_message (intent_router.py:24-60) for one user:
    lazily initialize the state, append the inbound turn, handle the intent,
    append the outbound turn, and truncate the history to the most recent 10
    entries when it exceeds 10. -/
def IntentRouter.route_message (cfg : HoursConfig) (durMin : Nat)
    (inp : StepIn) (prior : Option ConvState) : Except PyErr (ConvState × Reply × StepLog) :=
  let state0 := prior.getD initState
  let state1 := { state0 with history := state0.history ++ [Turn.user inp.message] }
  match IntentRouter.handle_intent cfg durMin inp state1 with
  | .error e => .error e
  | .ok (response, state2, log) =>
    let state3 := { state2 with history := state2.history ++ [Turn.assistant response] }
    let state4 := { state3 with
      history := if state3.history.length > 10 then lastN 10 state3.history
                 else state3.history }
    .ok (state4, response, log)

/-- A sequence of route_message calls for one user, threading the stored
    conversation state and accumulating the full turn sequence and the
    effect logs.  `none` propagates a Python exception. -/
def runTrace (cfg : HoursConfig) (durMin : Nat) :
    List StepIn → ConvState → List Turn → StepLog →
    Option (ConvState × List Turn × StepLog)
  | [], st, turns, log => some (st, turns, log)
  | inp :: rest, st, turns, log =>
    match IntentRouter.route_message cfg durMin inp (some st) with
    | .error _ => none
    | .ok (st2, response, l) =>
      runTrace cfg durMin rest st2
        (turns ++ [Turn.user inp.message, Turn.assistant response])
        ⟨log.bookings ++ l.bookings, log.qaContexts ++ l.qaContexts⟩

theorem genSlotsBlock_eq_range (dur : Int) (hd : 0 < dur) (bs be : Int) :
    genSlotsBlock dur bs be =
      (List.range (numSlots dur bs be)).map (fun k : Nat => bs + (k : Int) * dur) := by
  induction bs, be using genSlotsBlock.induct dur with
  | case1 bs be h ih =>
    rw [genSlotsBlock, if_pos h, ih]
    have hn : numSlots dur bs be = numSlots dur (bs + dur) be + 1 := by
      unfold numSlots
      rw [if_pos h.2]
      by_cases h2 : bs + dur + dur ≤ be
      · rw [if_pos h2]
        have hD : 0 < dur.toNat := by omega
        have hle : dur.toNat ≤ (be - bs - dur).toNat := by omega
        rw [Nat.div_eq ((be - bs - dur).toNat) dur.toNat, if_pos ⟨hD, hle⟩]
        have hsub : (be - bs - dur).toNat - dur.toNat = (be - (bs + dur) - dur).toNat := by
          omega
        rw [hsub]
      · rw [if_neg h2]
        have hlt : (be - bs - dur).toNat < dur.toNat := by omega
        rw [Nat.div_eq_of_lt hlt]
    rw [hn, List.range_succ_eq_map, List.map_cons, List.map_map]
    have hf : ((fun k : Nat => bs + (k : Int) * dur) ∘ Nat.succ) =
        (fun k : Nat => bs + dur + (k : Int) * dur) := by
      funext k
      simp [Function.comp]
      ring
    rw [hf]
    simp
  | case2 bs be h =>
    rw [genSlotsBlock, if_neg h]
    have hne : ¬ (bs + dur ≤ be) := by tauto
    simp [numSlots, hne]

theorem lastN_length_le (n : Nat) (l : List α) : (lastN n l).length ≤ n := by
  simp [lastN]
  omega

theorem lastN_of_length_le (n : Nat) (l : List α) (h : l.length ≤ n) :
    lastN n l = l := by
  simp [lastN, Nat.sub_eq_zero_of_le h]

theorem lastN_suffix (n : Nat) (l : List α) : (lastN n l).IsSuffix l :=
  List.drop_suffix _ _

theorem lastN_append_lastN (n : Nat) (xs ys : List α) :
    lastN n (lastN n xs ++ ys) = lastN n (xs ++ ys) := by
  unfold lastN
  have h1 : (xs ++ ys).drop (xs.length - n) = xs.drop (xs.length - n) ++ ys :=
    List.drop_append_of_le_length (by omega)
  rw [← h1, List.drop_drop]
  congr 1
  simp [List.length_drop, List.length_append]
  omega

theorem dictGet_successDict_proposed (eid : String) (t : Int) (nm svc : String) :
    dictGet (successDict eid t nm svc) "proposed_time" = none := by
  simp [successDict, dictGet]

theorem dictGet_successDict_success (eid : String) (t : Int) (nm svc : String) :
    dictGet (successDict eid t nm svc) "success" = some (Val.bool true) := by
  simp [successDict, dictGet]

theorem dictGet_timeNotAvailable_error :
    dictGet timeNotAvailableDict "error" = some (Val.str "time_not_available") := by
  decide

theorem dictGet_calendarError_error :
    dictGet calendarErrorDict "error" = some (Val.str "calendar_error") := by
  decide

theorem dictGet_timeNotAvailable_success :
    dictGet timeNotAvailableDict "success" = some (Val.bool false) := by
  decide

theorem dictGet_calendarError_success :
    dictGet calendarErrorDict "success" = some (Val.bool false) := by
  decide

/-- Values the per-user booking_data dict holds in reachable states: its
    initial empty value, or the success dict of a completed booking (the
    only assignment, intent_router.py:142, stores the create_booking result
    and only on success; customer name and service type are the constants
    the router passes). -/
def BDinv (st : ConvState) : Prop :=
  st.booking_data = [] ∨
    ∃ eid t, st.booking_data = successDict eid t "Customer" "Haircut"

/-- Reachable-state invariant of the conversation engine. -/
def ReachInv (st : ConvState) : Prop := BDinv st ∧ st.stage ≠ "completed"

theorem ReachInv_initState : ReachInv initState := ⟨Or.inl rfl, by decide⟩

theorem BDinv_proposed_none (st : ConvState) (h : BDinv st) :
    dictGet st.booking_data "proposed_time" = none := by
  rcases h with h | ⟨eid, t, h⟩
  · rw [h]
    rfl
  · rw [h]
    exact dictGet_successDict_proposed eid t "Customer" "Haircut"

theorem BDinv_extract_none (msg : String) (st : ConvState) (h : BDinv st) :
    IntentRouter.extract_confirmed_time msg st = none := by
  unfold IntentRouter.extract_confirmed_time
  rw [BDinv_proposed_none st h]
  split <;> rfl

theorem handle_intent_spec (cfg : HoursConfig) (durMin : Nat) (inp : StepIn)
    (st : ConvState) (h : BDinv st) :
    ∃ r st2 l, IntentRouter.handle_intent cfg durMin inp st = .ok (r, st2, l) ∧
      st2.booking_data = st.booking_data ∧
      st2.history = st.history ∧
      l.bookings = [] ∧
      (st2.stage = st.stage ∨ st2.stage ∈ ["greeted", "showing_availability",
        "asking_datetime", "awaiting_confirmation", "cancelled"]) := by
  unfold IntentRouter.handle_intent
  by_cases h1 : inp.intent = "greeting"
  · rw [if_pos h1]
    exact ⟨_, _, _, rfl, rfl, rfl, rfl, Or.inr (by simp)⟩
  rw [if_neg h1]
  by_cases h2 : inp.intent = "booking_inquiry"
  · rw [if_pos h2]
    rcases hdi : inp.dateInfo with _ | d
    · exact ⟨_, _, _, rfl, rfl, rfl, rfl, Or.inr (by simp)⟩
    · exact ⟨_, _, _, rfl, rfl, rfl, rfl, Or.inr (by simp)⟩
  rw [if_neg h2]
  by_cases h3 : inp.intent = "confirm_booking" ∧
      (st.stage = "showing_availability" ∨ st.stage = "awaiting_confirmation")
  · rw [if_pos h3, BDinv_extract_none inp.message st h]
    exact ⟨_, _, _, rfl, rfl, rfl, rfl, Or.inr (by simp)⟩
  rw [if_neg h3]
  by_cases h4 : inp.intent = "cancel_booking"
  · rw [if_pos h4]
    exact ⟨_, _, _, rfl, rfl, rfl, rfl, Or.inr (by simp)⟩
  rw [if_neg h4]
  by_cases h5 : inp.intent = "general_question"
  · rw [if_pos h5]
    exact ⟨_, _, _, rfl, rfl, rfl, rfl, Or.inl rfl⟩
  rw [if_neg h5]
  exact ⟨_, _, _, rfl, rfl, rfl, rfl, Or.inl rfl⟩

theorem truncate_eq_lastN (l : List Turn) :
    (if l.length > 10 then lastN 10 l else l) = lastN 10 l := by
  split
  · rfl
  · exact (lastN_of_length_le 10 l (by omega)).symm

theorem route_message_step (cfg : HoursConfig) (durMin : Nat) (inp : StepIn)
    (st : ConvState) (h : ReachInv st) :
    ∃ st2 r l, IntentRouter.route_message cfg durMin inp (some st) = .ok (st2, r, l) ∧
      ReachInv st2 ∧ l.bookings = [] ∧
      st2.history = lastN 10 (st.history ++ [Turn.user inp.message, Turn.assistant r]) := by
  rcases h with ⟨hb, hs⟩
  obtain ⟨r, stm, l, heq, hbd, hh, hlb, hstage⟩ :=
    handle_intent_spec cfg durMin inp
      { st with history := st.history ++ [Turn.user inp.message] } hb
  have hrm : IntentRouter.route_message cfg durMin inp (some st) =
      .ok ({ stm with history := lastN 10 (stm.history ++ [Turn.assistant r]) }, r, l) := by
    simp only [IntentRouter.route_message, Option.getD_some]
    rw [heq, ← truncate_eq_lastN (stm.history ++ [Turn.assistant r])]
  have hbm : BDinv stm := by
    unfold BDinv at hb ⊢
    rw [hbd]
    exact hb
  have hsm : stm.stage ≠ "completed" := by
    rcases hstage with he | hm
    · rw [he]
      exact hs
    · simp only [List.mem_cons, List.not_mem_nil, or_false] at hm
      rcases hm with h0 | h0 | h0 | h0 | h0 <;> rw [h0] <;> decide
  refine ⟨_, r, l, hrm, ⟨hbm, hsm⟩, hlb, ?_⟩
  show lastN 10 (stm.history ++ [Turn.assistant r]) = _
  rw [hh]
  simp

theorem runTrace_spec (cfg : HoursConfig) (durMin : Nat) :
    ∀ (inputs : List StepIn) (st : ConvState) (turns : List Turn) (log : StepLog)
      (st2 : ConvState) (turns2 : List Turn) (log2 : StepLog),
      ReachInv st → st.history = lastN 10 turns →
      runTrace cfg durMin inputs st turns log = some (st2, turns2, log2) →
      ReachInv st2 ∧ st2.history = lastN 10 turns2 ∧ log2.bookings = log.bookings := by
  intro inputs
  induction inputs with
  | nil =>
    intro st turns log st2 turns2 log2 hInv hH hrun
    simp only [runTrace, Option.some.injEq, Prod.mk.injEq] at hrun
    obtain ⟨e1, e2, e3⟩ := hrun
    subst e1
    subst e2
    subst e3
    exact ⟨hInv, hH, rfl⟩
  | cons inp rest ih =>
    intro st turns log st2 turns2 log2 hInv hH hrun
    obtain ⟨stm, r, l, heq, hInv2, hlb, hh⟩ := route_message_step cfg durMin inp st hInv
    simp only [runTrace] at hrun
    rw [heq] at hrun
    have hH2 : stm.history = lastN 10 (turns ++ [Turn.user inp.message, Turn.assistant r]) := by
      rw [hh, hH, lastN_append_lastN]
    obtain ⟨hI, hHist, hB⟩ := ih stm _ _ st2 turns2 log2 hInv2 hH2 hrun
    refine ⟨hI, hHist, ?_⟩
    rw [hB]
    simp [hlb]

theorem cal_get_uninit (env : Env) (cfg : HoursConfig) (durMin : Nat) (date : Int)
    (h : env.serviceInit = false) :
    CalendarService.get_available_slots env cfg durMin date = [] := by
  unfold CalendarService.get_available_slots
  simp [h]

theorem cal_get_read_fail (env : Env) (cfg : HoursConfig) (durMin : Nat) (date : Int)
    (h : ∀ a b, env.events a b = none) :
    CalendarService.get_available_slots env cfg durMin date = [] := by
  unfold CalendarService.get_available_slots
  split
  · rfl
  split
  · rfl
  simp only [h]
  split <;> rfl

theorem dayStartOf_dayStartOf (t : Int) : dayStartOf (dayStartOf t) = dayStartOf t := by
  unfold dayStartOf dayIndex
  have h : (86400 * (t.ediv 86400)).ediv 86400 = t.ediv 86400 :=
    Int.mul_ediv_cancel_left _ (by norm_num)
  rw [h]

theorem cal_get_day_normal (env : Env) (cfg : HoursConfig) (durMin : Nat) (date : Int) :
    CalendarService.get_available_slots env cfg durMin (dayStartOf date) =
      CalendarService.get_available_slots env cfg durMin date := by
  unfold CalendarService.get_available_slots
  rw [dayStartOf_dayStartOf]

theorem dayStartOf_eq_of_dayIndex_eq (a b : Int) (h : dayIndex a = dayIndex b) :
    dayStartOf a = dayStartOf b := by
  unfold dayStartOf
  rw [h]

theorem create_booking_cases (env : Env) (cfg : HoursConfig) (durMin : Nat)
    (t : Int) (nm svc : String) :
    (∃ eid, BookingManager.create_booking env cfg durMin t nm svc =
        (successDict eid t nm svc, [t])) ∨
    BookingManager.create_booking env cfg durMin t nm svc = (timeNotAvailableDict, []) ∨
    BookingManager.create_booking env cfg durMin t nm svc = (calendarErrorDict, [t]) := by
  unfold BookingManager.create_booking
  cases hX : (CalendarService.get_available_slots env cfg durMin (dayStartOf t)).any
      (fun slot => decide ((slot - t).natAbs < 60)) with
  | false =>
    right
    left
    simp [hX]
  | true =>
    rcases hca : CalendarService.create_appointment env t with _ | eid
    · right
      right
      simp [hX, hca]
    · left
      exact ⟨eid, by simp [hX, hca]⟩

theorem create_booking_commits_iff (env : Env) (cfg : HoursConfig) (durMin : Nat)
    (t : Int) (nm svc : String) :
    (BookingManager.create_booking env cfg durMin t nm svc).2 = [t] ↔
      (CalendarService.get_available_slots env cfg durMin (dayStartOf t)).any
        (fun slot => decide ((slot - t).natAbs < 60)) = true := by
  unfold BookingManager.create_booking
  cases hX : (CalendarService.get_available_slots env cfg durMin (dayStartOf t)).any
      (fun slot => decide ((slot - t).natAbs < 60)) with
  | false => simp [hX]
  | true =>
    rcases hca : CalendarService.create_appointment env t with _ | eid <;> simp [hX, hca]

theorem create_booking_reject (env : Env) (cfg : HoursConfig) (durMin : Nat)
    (t : Int) (nm svc : String)
    (h : (CalendarService.get_available_slots env cfg durMin (dayStartOf t)).any
        (fun slot => decide ((slot - t).natAbs < 60)) = false) :
    BookingManager.create_booking env cfg durMin t nm svc = (timeNotAvailableDict, []) := by
  unfold BookingManager.create_booking
  simp [h]

theorem create_booking_commit_fail (env : Env) (cfg : HoursConfig) (durMin : Nat)
    (t : Int) (nm svc : String)
    (ha : (CalendarService.get_available_slots env cfg durMin (dayStartOf t)).any
        (fun slot => decide ((slot - t).natAbs < 60)) = true)
    (hc : CalendarService.create_appointment env t = none) :
    BookingManager.create_booking env cfg durMin t nm svc = (calendarErrorDict, [t]) := by
  unfold BookingManager.create_booking
  simp [ha, hc]

theorem handle_intent_bookings (cfg : HoursConfig) (durMin : Nat) (inp : StepIn)
    (st : ConvState) :
    ∀ r st2 l, IntentRouter.handle_intent cfg durMin inp st = .ok (r, st2, l) →
      l.bookings = [] ∨
      ∃ ts, l.bookings = [ts] ∧
        (dictGet ts.2 "success" = some (Val.bool true) ∨
          (st2 = st ∧ r = Reply.bookingError)) := by
  intro r st2 l he
  unfold IntentRouter.handle_intent at he
  by_cases h1 : inp.intent = "greeting"
  · rw [if_pos h1] at he
    simp only [Except.ok.injEq, Prod.mk.injEq] at he
    left
    rw [← he.2.2]
  · rw [if_neg h1] at he
    by_cases h2 : inp.intent = "booking_inquiry"
    · rw [if_pos h2] at he
      rcases hdi : inp.dateInfo with _ | d <;> rw [hdi] at he <;>
        simp only [Except.ok.injEq, Prod.mk.injEq] at he <;>
        exact Or.inl (by rw [← he.2.2])
    · rw [if_neg h2] at he
      by_cases h3 : inp.intent = "confirm_booking" ∧
          (st.stage = "showing_availability" ∨ st.stage = "awaiting_confirmation")
      · rw [if_pos h3] at he
        rcases hx : IntentRouter.extract_confirmed_time inp.message st with _ | v
        · rw [hx] at he
          simp only [Except.ok.injEq, Prod.mk.injEq] at he
          left
          rw [← he.2.2]
        · rw [hx] at he
          cases v with
          | str s => simp at he
          | bool b => simp at he
          | time ts =>
            simp only [] at he
            by_cases hsucc : dictGet
                (BookingManager.create_booking inp.env cfg durMin ts "Customer" "Haircut").1
                "success" = some (Val.bool true)
            · rw [if_pos hsucc] at he
              simp only [Except.ok.injEq, Prod.mk.injEq] at he
              right
              exact ⟨(ts,
                (BookingManager.create_booking inp.env cfg durMin ts "Customer" "Haircut").1),
                by rw [← he.2.2], Or.inl hsucc⟩
            · rw [if_neg hsucc] at he
              simp only [Except.ok.injEq, Prod.mk.injEq] at he
              right
              exact ⟨(ts,
                (BookingManager.create_booking inp.env cfg durMin ts "Customer" "Haircut").1),
                by rw [← he.2.2], Or.inr ⟨he.2.1.symm, he.1.symm⟩⟩
      · rw [if_neg h3] at he
        by_cases h4 : inp.intent = "cancel_booking"
        · rw [if_pos h4] at he
          simp only [Except.ok.injEq, Prod.mk.injEq] at he
          left
          rw [← he.2.2]
        · rw [if_neg h4] at he
          by_cases h5 : inp.intent = "general_question"
          · rw [if_pos h5] at he
            simp only [Except.ok.injEq, Prod.mk.injEq] at he
            left
            rw [← he.2.2]
          · rw [if_neg h5] at he
            simp only [Except.ok.injEq, Prod.mk.injEq] at he
            left
            rw [← he.2.2]

theorem route_message_bookings (cfg : HoursConfig) (durMin : Nat) (inp : StepIn)
    (st : ConvState) :
    ∀ st2 r l, IntentRouter.route_message cfg durMin inp (some st) = .ok (st2, r, l) →
      l.bookings = [] ∨
      ∃ ts, l.bookings = [ts] ∧
        (dictGet ts.2 "success" = some (Val.bool true) ∨
          (st2.stage = st.stage ∧ r = Reply.bookingError)) := by
  intro st2 r l hrm
  unfold IntentRouter.route_message at hrm
  simp only [Option.getD_some] at hrm
  rcases hhe : IntentRouter.handle_intent cfg durMin inp
      { st with history := st.history ++ [Turn.user inp.message] } with e | rsl
  · rw [hhe] at hrm
    simp at hrm
  · obtain ⟨r0, stm, l0⟩ := rsl
    rw [hhe] at hrm
    simp only [Except.ok.injEq, Prod.mk.injEq] at hrm
    obtain ⟨hst2, hr, hl⟩ := hrm
    rcases handle_intent_bookings cfg durMin inp _ r0 stm l0 hhe with hempty | ⟨ts, hts, hcase⟩
    · left
      rw [← hl]
      exact hempty
    · right
      refine ⟨ts, by rw [← hl]; exact hts, ?_⟩
      rcases hcase with hsucc | ⟨hstEq, hrEq⟩
      · exact Or.inl hsucc
      · right
        constructor
        · rw [← hst2, hstEq]
        · rw [← hr]
          exact hrEq

theorem confirm_step_clarify (cfg : HoursConfig) (durMin : Nat) (inp : StepIn)
    (st : ConvState) (h : BDinv st) (hi : inp.intent = "confirm_booking")
    (hs : st.stage = "showing_availability" ∨ st.stage = "awaiting_confirmation") :
    ∀ st2 r l, IntentRouter.route_message cfg durMin inp (some st) = .ok (st2, r, l) →
      st2.stage = "awaiting_confirmation" ∧ r = Reply.clarifyTime ∧ l = ⟨[], []⟩ := by
  intro st2 r l hrm
  unfold IntentRouter.route_message IntentRouter.handle_intent at hrm
  simp only [Option.getD_some] at hrm
  rw [hi] at hrm
  rw [if_neg (show ¬ ("confirm_booking" = "greeting") by decide)] at hrm
  rw [if_neg (show ¬ ("confirm_booking" = "booking_inquiry") by decide)] at hrm
  rw [if_pos (show ("confirm_booking" = "confirm_booking") ∧ _ from ⟨rfl, hs⟩)] at hrm
  rw [BDinv_extract_none inp.message
    { st with history := st.history ++ [Turn.user inp.message] } h] at hrm
  simp only [Except.ok.injEq, Prod.mk.injEq] at hrm
  obtain ⟨h1, h2, h3⟩ := hrm
  refine ⟨?_, h2.symm, h3.symm⟩
  rw [← h1]

theorem qa_context_step (cfg : HoursConfig) (durMin : Nat) (inp : StepIn)
    (st : ConvState) (hi : inp.intent = "general_question") :
    ∀ st2 r l, IntentRouter.route_message cfg durMin inp (some st) = .ok (st2, r, l) →
      l = ⟨[], [lastN 4 (st.history ++ [Turn.user inp.message])]⟩ := by
  intro st2 r l hrm
  unfold IntentRouter.route_message IntentRouter.handle_intent at hrm
  simp only [Option.getD_some] at hrm
  rw [hi] at hrm
  rw [if_neg (show ¬ ("general_question" = "greeting") by decide)] at hrm
  rw [if_neg (show ¬ ("general_question" = "booking_inquiry") by decide)] at hrm
  rw [if_neg (fun hc => absurd hc.1 (by decide))] at hrm
  rw [if_neg (show ¬ ("general_question" = "cancel_booking") by decide)] at hrm
  rw [if_pos (show ("general_question" = "general_question") from rfl)] at hrm
  simp only [Except.ok.injEq, Prod.mk.injEq] at hrm
  exact hrm.2.2.symm

theorem isAvailableSlot_iff (dur : Int) (events : List Busy) (s : Int) :
    isAvailableSlot dur events s = true ↔
      ∀ ev ∈ events, ¬ (s < ev.stop ∧ s + dur > ev.start) := by
  unfold isAvailableSlot
  rw [List.all_eq_true]
  constructor
  · intro h ev hev hc
    have h2 := h ev hev
    unfold slotConflicts at h2
    simp [hc.1, hc.2] at h2
  · intro h ev hev
    unfold slotConflicts
    have h2 := h ev hev
    by_cases hlt : s < ev.stop
    · have h3 : ¬ (s + dur > ev.start) := fun hgt => h2 ⟨hlt, hgt⟩
      simp [hlt, h3]
    · simp [hlt]

theorem filter_available_mem (dur : Int) (events : List Busy) (slots : List Int) (x : Int) :
    x ∈ slots.filter (isAvailableSlot dur events) ↔
      x ∈ slots ∧ ∀ ev ∈ events, ¬ (x < ev.stop ∧ x + dur > ev.start) := by
  rw [List.mem_filter, isAvailableSlot_iff]

theorem lastN_length (n : Nat) (l : List α) : (lastN n l).length = min n l.length := by
  simp [lastN]
  omega

theorem day_slots_skip_past (env : Env) (cfg : HoursConfig) (durMin : Nat)
    (rd : Int) (off : Nat)
    (h : dayIndex (rd + (off : Int) * 86400) < dayIndex env.now) :
    BookingManager.day_slots env cfg durMin rd off = [] := by
  unfold BookingManager.day_slots
  simp [h]

theorem day_slots_future (env : Env) (cfg : HoursConfig) (durMin : Nat)
    (rd : Int) (off : Nat) :
    ∀ s ∈ BookingManager.day_slots env cfg durMin rd off, env.now < s := by
  intro s hs
  by_cases hc : dayIndex (rd + (off : Int) * 86400) < dayIndex env.now
  · rw [day_slots_skip_past env cfg durMin rd off hc] at hs
    simp at hs
  · unfold BookingManager.day_slots at hs
    simp only [hc, if_false, List.mem_filter, decide_eq_true_eq] at hs
    exact hs.2

theorem all_slots_mem (env : Env) (cfg : HoursConfig) (durMin : Nat)
    (rd : Int) (nd : Nat) (s : Int) :
    s ∈ BookingManager.all_slots env cfg durMin rd nd ↔
      ∃ off < nd, s ∈ BookingManager.day_slots env cfg durMin rd off := by
  unfold BookingManager.all_slots
  rw [List.mem_flatMap]
  constructor
  · rintro ⟨off, hoff, hmem⟩
    exact ⟨off, List.mem_range.mp hoff, hmem⟩
  · rintro ⟨off, hoff, hmem⟩
    exact ⟨off, List.mem_range.mpr hoff, hmem⟩

theorem genSlotsBlock_nine_noon :
    genSlotsBlock 3600 32400 43200 = [32400, 36000, 39600] := by
  rw [genSlotsBlock_eq_range 3600 (by norm_num)]
  decide

theorem genSlotsBlock_one_six :
    genSlotsBlock 3600 46800 64800 = [46800, 50400, 54000, 57600, 61200] := by
  rw [genSlotsBlock_eq_range 3600 (by norm_num)]
  decide

theorem split_day_slots_concrete :
    CalendarService.get_available_slots
      ⟨0, true, fun _ _ => some [], fun _ => none⟩
      ⟨[(9, 0), (13, 0)], [(12, 0), (18, 0)]⟩ 60 0 =
      [32400, 36000, 39600, 46800, 50400, 54000, 57600, 61200] := by
  unfold CalendarService.get_available_slots
  norm_num [dayStartOf, dayIndex, hmOffset, genSlotsBlock_nine_noon, genSlotsBlock_one_six,
    isAvailableSlot]

theorem genSlotsBlock_nine_six :
    genSlotsBlock 3600 32400 64800 =
      [32400, 36000, 39600, 43200, 46800, 50400, 54000, 57600, 61200] := by
  rw [genSlotsBlock_eq_range 3600 (by norm_num)]
  decide

theorem single_block_slots_concrete :
    CalendarService.get_available_slots ⟨0, true, fun _ _ => some [], fun _ => none⟩
      ⟨[(9, 0)], [(18, 0)]⟩ 60 0 =
      [32400, 36000, 39600, 43200, 46800, 50400, 54000, 57600, 61200] := by
  unfold CalendarService.get_available_slots
  norm_num [dayStartOf, dayIndex, hmOffset, genSlotsBlock_nine_six, isAvailableSlot]

/-- Claim C1: for every requested appointment time, create_booking first
recomputes the available slots of the requested day and proceeds to the create-event call
iff the start of some recomputed slot differs from the requested time by
strictly less than 60 seconds; when no slot matches, it returns the
rejection whose error field is time_not_available and issues no
create-event call. -/
theorem c1_create_booking_revalidation (env : Env) (cfg : HoursConfig) (durMin : Nat)
    (t : Int) (nm svc : String) :
    ((BookingManager.create_booking env cfg durMin t nm svc).2 = [t] ↔
      (CalendarService.get_available_slots env cfg durMin (dayStartOf t)).any
        (fun slot => decide ((slot - t).natAbs < 60)) = true)
    ∧ ((CalendarService.get_available_slots env cfg durMin (dayStartOf t)).any
        (fun slot => decide ((slot - t).natAbs < 60)) = false →
        BookingManager.create_booking env cfg durMin t nm svc = (timeNotAvailableDict, []))
    ∧ dictGet timeNotAvailableDict "error" = some (Val.str "time_not_available") :=
  ⟨create_booking_commits_iff env cfg durMin t nm svc,
   fun h => create_booking_reject env cfg durMin t nm svc h,
   dictGet_timeNotAvailable_error⟩

theorem c1_witness :
    BookingManager.create_booking ⟨0, false, fun _ _ => none, fun _ => none⟩
      ⟨[(9, 0)], [(18, 0)]⟩ 60 50400 "Customer" "Haircut" = (timeNotAvailableDict, []) :=
  (c1_create_booking_revalidation ⟨0, false, fun _ _ => none, fun _ => none⟩
    ⟨[(9, 0)], [(18, 0)]⟩ 60 50400 "Customer" "Haircut").2.1 (by decide)

/-- Claim C2: a candidate slot [s, s+d) is excluded iff some busy interval
[b0, b1) satisfies s < b1 and s+d > b0; a busy interval abutting the slot
at its end (busy.start = slot end) does not exclude it; a slot is kept only when
it clears every busy interval (and a busy interval containing the slot
excludes it). -/
theorem c2_conflict_filter (dur : Int) (events : List Busy) (slots : List Int) (x : Int) :
    (x ∈ slots.filter (isAvailableSlot dur events) ↔
      x ∈ slots ∧ ∀ ev ∈ events, ¬ (x < ev.stop ∧ x + dur > ev.start))
    ∧ (∀ ev : Busy, ev.start = x + dur → slotConflicts dur x ev = false)
    ∧ (∀ ev : Busy, 0 < dur → ev.start ≤ x → x + dur ≤ ev.stop →
        slotConflicts dur x ev = true) := by
  refine ⟨filter_available_mem dur events slots x, ?_, ?_⟩
  · intro ev h
    unfold slotConflicts
    simp [h]
  · intro ev hd h1 h2
    unfold slotConflicts
    have hA : x < ev.stop := by omega
    have hB : x + dur > ev.start := by omega
    simp [hA, hB]

theorem c2_witness :
    slotConflicts 3600 0 ⟨3600, 7200⟩ = false ∧ slotConflicts 3600 0 ⟨0, 3600⟩ = true :=
  ⟨(c2_conflict_filter 3600 [] [] 0).2.1 ⟨3600, 7200⟩ (by decide),
   (c2_conflict_filter 3600 [] [] 0).2.2 ⟨0, 3600⟩ (by decide) (by decide) (by decide)⟩

/-- Claim C3: for each block in order, slot generation emits block.start,
block.start+duration, ... while current + duration ≤ block.end; a block
with start ≥ end contributes the empty sequence; with blocks
(9:00,12:00),(13:00,18:00) and 60-minute slots a day yields exactly
3 + 5 = 8 slots, none crossing the 12:00-13:00 gap. -/
theorem c3_slot_generation :
    (∀ dur bs be : Int, 0 < dur →
      genSlotsBlock dur bs be =
        (List.range (numSlots dur bs be)).map (fun k : Nat => bs + (k : Int) * dur))
    ∧ (∀ dur bs be : Int, 0 < dur → be ≤ bs → genSlotsBlock dur bs be = [])
    ∧ (CalendarService.get_available_slots ⟨0, true, fun _ _ => some [], fun _ => none⟩
        ⟨[(9, 0), (13, 0)], [(12, 0), (18, 0)]⟩ 60 0).length = 8
    ∧ (∀ s ∈ CalendarService.get_available_slots ⟨0, true, fun _ _ => some [], fun _ => none⟩
        ⟨[(9, 0), (13, 0)], [(12, 0), (18, 0)]⟩ 60 0,
        s + 3600 ≤ 43200 ∨ 46800 ≤ s) := by
  refine ⟨fun dur bs be hd => genSlotsBlock_eq_range dur hd bs be, ?_, ?_, ?_⟩
  · intro dur bs be hd hbe
    rw [genSlotsBlock_eq_range dur hd]
    have hne : ¬ (bs + dur ≤ be) := by omega
    simp [numSlots, hne]
  · rw [split_day_slots_concrete]
    rfl
  · rw [split_day_slots_concrete]
    decide

theorem c3_witness :
    genSlotsBlock 3600 32400 43200 =
      (List.range (numSlots 3600 32400 43200)).map (fun k : Nat => 32400 + (k : Int) * 3600)
    ∧ genSlotsBlock 3600 50000 40000 = [] :=
  ⟨c3_slot_generation.1 3600 32400 43200 (by norm_num),
   c3_slot_generation.2.1 3600 50000 40000 (by norm_num) (by norm_num)⟩

/-- Claim C4: over every sequence of intents processed by the engine, stage
completed requires a prior successful create_booking result (stated
contrapositively over the booking-call log); and a step taken from
awaiting_confirmation whose create_booking call returns a failure keeps the
stage at awaiting_confirmation (not completed) and returns the
booking-error reply. -/
theorem c4_completed_requires_success :
    (∀ (cfg : HoursConfig) (durMin : Nat) (inputs : List StepIn)
       (st : ConvState) (turns : List Turn) (log : StepLog),
       runTrace cfg durMin inputs initState [] ⟨[], []⟩ = some (st, turns, log) →
       (∀ e ∈ log.bookings, dictGet e.2 "success" ≠ some (Val.bool true)) →
       st.stage ≠ "completed")
    ∧ (∀ (cfg : HoursConfig) (durMin : Nat) (inp : StepIn) (st st2 : ConvState)
        (r : Reply) (l : StepLog),
        st.stage = "awaiting_confirmation" →
        IntentRouter.route_message cfg durMin inp (some st) = .ok (st2, r, l) →
        ∀ e ∈ l.bookings, dictGet e.2 "success" ≠ some (Val.bool true) →
          st2.stage = "awaiting_confirmation" ∧ st2.stage ≠ "completed" ∧
            r = Reply.bookingError) := by
  constructor
  · intro cfg durMin inputs st turns log hrun hfail
    have h := runTrace_spec cfg durMin inputs initState [] ⟨[], []⟩ st turns log
      ReachInv_initState rfl hrun
    exact h.1.2
  · intro cfg durMin inp st st2 r l hstage hrm e he hfail
    rcases route_message_bookings cfg durMin inp st st2 r l hrm with hempty | ⟨ts, hts, hcase⟩
    · rw [hempty] at he
      simp at he
    · rw [hts] at he
      simp at he
      subst he
      rcases hcase with hsucc | ⟨hsame, hr⟩
      · exact absurd hsucc hfail
      · exact ⟨by rw [hsame, hstage], by rw [hsame, hstage]; decide, hr⟩

theorem c4_witness :
    (initState.stage ≠ "completed")
    ∧ (({ stage := "awaiting_confirmation",
          history := [Turn.user "yes", Turn.assistant Reply.bookingError],
          booking_data := [("proposed_time", Val.time 50400)] } : ConvState).stage =
            "awaiting_confirmation"
        ∧ ({ stage := "awaiting_confirmation",
             history := [Turn.user "yes", Turn.assistant Reply.bookingError],
             booking_data := [("proposed_time", Val.time 50400)] } : ConvState).stage ≠
               "completed"
        ∧ Reply.bookingError = Reply.bookingError) :=
  ⟨c4_completed_requires_success.1 ⟨[(9, 0)], [(18, 0)]⟩ 60 [] initState [] ⟨[], []⟩ rfl
      (by simp),
   c4_completed_requires_success.2 ⟨[(9, 0)], [(18, 0)]⟩ 60
      ⟨"yes", "confirm_booking", none, "", ⟨0, false, fun _ _ => none, fun _ => none⟩⟩
      { stage := "awaiting_confirmation", history := [],
        booking_data := [("proposed_time", Val.time 50400)] }
      { stage := "awaiting_confirmation",
        history := [Turn.user "yes", Turn.assistant Reply.bookingError],
        booking_data := [("proposed_time", Val.time 50400)] }
      Reply.bookingError ⟨[(50400, timeNotAvailableDict)], []⟩ rfl (by rfl)
      (50400, timeNotAvailableDict) (by decide) (by decide)⟩

/-- Claim C5: in every reachable conversation state the booking_data dict
never contains the proposed_time key; consequently extract_confirmed_time
returns None for every message, every confirm_booking intent in the
showing_availability or awaiting_confirmation stages moves the stage to
awaiting_confirmation with the clarification reply, and no sequence of
route_message calls sets the stage to completed. -/
theorem c5_proposed_time_never_set :
    ∀ (cfg : HoursConfig) (durMin : Nat) (inputs : List StepIn)
      (st : ConvState) (turns : List Turn) (log : StepLog),
      runTrace cfg durMin inputs initState [] ⟨[], []⟩ = some (st, turns, log) →
      dictGet st.booking_data "proposed_time" = none
      ∧ (∀ msg, IntentRouter.extract_confirmed_time msg st = none)
      ∧ st.stage ≠ "completed"
      ∧ (∀ (inp : StepIn) (st2 : ConvState) (r : Reply) (l : StepLog),
          inp.intent = "confirm_booking" →
          (st.stage = "showing_availability" ∨ st.stage = "awaiting_confirmation") →
          IntentRouter.route_message cfg durMin inp (some st) = .ok (st2, r, l) →
          st2.stage = "awaiting_confirmation" ∧ r = Reply.clarifyTime) := by
  intro cfg durMin inputs st turns log hrun
  have h := runTrace_spec cfg durMin inputs initState [] ⟨[], []⟩ st turns log
    ReachInv_initState rfl hrun
  obtain ⟨⟨hbd, hstage⟩, -, -⟩ := h
  refine ⟨BDinv_proposed_none st hbd, fun msg => BDinv_extract_none msg st hbd, hstage, ?_⟩
  intro inp st2 r l hi hs hrm
  have hc := confirm_step_clarify cfg durMin inp st hbd hi hs st2 r l hrm
  exact ⟨hc.1, hc.2.1⟩

theorem c5_witness :
    dictGet ([] : Dict) "proposed_time" = none
    ∧ ({ stage := "awaiting_confirmation",
         history := [Turn.user "book tomorrow", Turn.assistant (Reply.availability []),
           Turn.user "yes", Turn.assistant Reply.clarifyTime],
         booking_data := [] } : ConvState).stage = "awaiting_confirmation"
    ∧ Reply.clarifyTime = Reply.clarifyTime := by
  have h := c5_proposed_time_never_set ⟨[(9, 0)], [(18, 0)]⟩ 60
    [⟨"book tomorrow", "booking_inquiry", some 0, "",
      ⟨0, false, fun _ _ => none, fun _ => none⟩⟩]
    { stage := "showing_availability",
      history := [Turn.user "book tomorrow", Turn.assistant (Reply.availability [])],
      booking_data := [] }
    [Turn.user "book tomorrow", Turn.assistant (Reply.availability [])]
    ⟨[], []⟩ (by rfl)
  have h4 := h.2.2.2
    ⟨"yes", "confirm_booking", none, "", ⟨0, false, fun _ _ => none, fun _ => none⟩⟩
    { stage := "awaiting_confirmation",
      history := [Turn.user "book tomorrow", Turn.assistant (Reply.availability []),
        Turn.user "yes", Turn.assistant Reply.clarifyTime],
      booking_data := [] }
    Reply.clarifyTime ⟨[], []⟩ rfl (Or.inl rfl) (by rfl)
  exact ⟨h.1, h4.1, h4.2⟩

/-- Claim C7: after any number of route_message calls, the retained history
has length at most 10 and is exactly the most recent 10 appended turns in
arrival order; the Q&A collaborator receives only the most recent (at most,
and when available exactly) 4 turns of the history at that point. -/
theorem c7_history_bound :
    (∀ (cfg : HoursConfig) (durMin : Nat) (inputs : List StepIn)
       (st : ConvState) (turns : List Turn) (log : StepLog),
       runTrace cfg durMin inputs initState [] ⟨[], []⟩ = some (st, turns, log) →
       st.history.length ≤ 10 ∧ st.history = lastN 10 turns)
    ∧ (∀ (cfg : HoursConfig) (durMin : Nat) (inp : StepIn) (st st2 : ConvState)
        (r : Reply) (l : StepLog),
        inp.intent = "general_question" →
        IntentRouter.route_message cfg durMin inp (some st) = .ok (st2, r, l) →
        ∀ c ∈ l.qaContexts,
          c.length ≤ 4 ∧ c.IsSuffix (st.history ++ [Turn.user inp.message]) ∧
            (4 ≤ (st.history ++ [Turn.user inp.message]).length → c.length = 4)) := by
  constructor
  · intro cfg durMin inputs st turns log hrun
    have h := runTrace_spec cfg durMin inputs initState [] ⟨[], []⟩ st turns log
      ReachInv_initState rfl hrun
    refine ⟨?_, h.2.1⟩
    rw [h.2.1]
    exact lastN_length_le 10 turns
  · intro cfg durMin inp st st2 r l hi hrm c hc
    have hl := qa_context_step cfg durMin inp st hi st2 r l hrm
    rw [hl] at hc
    simp only [List.mem_singleton] at hc
    subst hc
    refine ⟨lastN_length_le 4 _, lastN_suffix 4 _, fun h4 => ?_⟩
    rw [lastN_length]
    omega

theorem c7_witness :
    (initState.history.length ≤ 10 ∧ initState.history = lastN 10 [])
    ∧ ([Turn.user "hi"].length ≤ 4
        ∧ List.IsSuffix [Turn.user "hi"] (initState.history ++ [Turn.user "hi"])
        ∧ (4 ≤ (initState.history ++ [Turn.user "hi"]).length →
            [Turn.user "hi"].length = 4)) := by
  refine ⟨c7_history_bound.1 ⟨[(9, 0)], [(18, 0)]⟩ 60 [] initState [] ⟨[], []⟩ rfl, ?_⟩
  exact c7_history_bound.2 ⟨[(9, 0)], [(18, 0)]⟩ 60
    ⟨"hi", "general_question", none, "answer", ⟨0, false, fun _ _ => none, fun _ => none⟩⟩
    initState
    { stage := "initial", history := [Turn.user "hi", Turn.assistant (Reply.answer "answer")],
      booking_data := [] }
    (Reply.answer "answer") ⟨[], [[Turn.user "hi"]]⟩ rfl (by rfl)
    [Turn.user "hi"] (by decide)

/-- Claim C8: the availability query skips any day strictly before today,
drops any surviving slot not strictly later than the call time,
concatenates the remaining slots in day order, and returns at most the
first 5 of them. -/
theorem c8_availability_window (env : Env) (cfg : HoursConfig) (durMin : Nat)
    (rd : Int) (nd : Nat) :
    BookingManager.get_available_slots env cfg durMin rd nd =
      (BookingManager.all_slots env cfg durMin rd nd).take 5
    ∧ (BookingManager.get_available_slots env cfg durMin rd nd).length ≤ 5
    ∧ (∀ s ∈ BookingManager.get_available_slots env cfg durMin rd nd, env.now < s)
    ∧ (∀ off : Nat, dayIndex (rd + (off : Int) * 86400) < dayIndex env.now →
        BookingManager.day_slots env cfg durMin rd off = [])
    ∧ (∀ s, s ∈ BookingManager.all_slots env cfg durMin rd nd ↔
        ∃ off < nd, s ∈ BookingManager.day_slots env cfg durMin rd off) := by
  refine ⟨rfl, ?_, ?_, fun off h => day_slots_skip_past env cfg durMin rd off h,
    fun s => all_slots_mem env cfg durMin rd nd s⟩
  · unfold BookingManager.get_available_slots
    rw [List.length_take]
    omega
  · intro s hs
    unfold BookingManager.get_available_slots at hs
    have hs2 := List.take_subset 5 _ hs
    rw [all_slots_mem] at hs2
    obtain ⟨off, -, hmem⟩ := hs2
    exact day_slots_future env cfg durMin rd off s hmem

theorem c8_witness :
    BookingManager.day_slots ⟨0, false, fun _ _ => none, fun _ => none⟩
      ⟨[(9, 0)], [(18, 0)]⟩ 60 (-86400) 0 = [] :=
  (c8_availability_window ⟨0, false, fun _ _ => none, fun _ => none⟩
    ⟨[(9, 0)], [(18, 0)]⟩ 60 (-86400) 3).2.2.2.1 0 (by decide)

/-- Claim C9: when the commit step obtains no remote event identifier the
result is the calendar_error failure, whose error field differs from
time_not_available; when the remote calendar is uninitialized or the busy
read fails, that day yields the empty slot set rather than an exception. -/
theorem c9_error_discrimination :
    (∀ (env : Env) (cfg : HoursConfig) (durMin : Nat) (t : Int) (nm svc : String),
       (CalendarService.get_available_slots env cfg durMin (dayStartOf t)).any
         (fun slot => decide ((slot - t).natAbs < 60)) = true →
       CalendarService.create_appointment env t = none →
       BookingManager.create_booking env cfg durMin t nm svc = (calendarErrorDict, [t]))
    ∧ dictGet calendarErrorDict "error" = some (Val.str "calendar_error")
    ∧ dictGet calendarErrorDict "error" ≠ dictGet timeNotAvailableDict "error"
    ∧ (∀ (env : Env) (cfg : HoursConfig) (durMin : Nat) (date : Int),
        env.serviceInit = false →
        CalendarService.get_available_slots env cfg durMin date = [])
    ∧ (∀ (env : Env) (cfg : HoursConfig) (durMin : Nat) (date : Int),
        (∀ a b, env.events a b = none) →
        CalendarService.get_available_slots env cfg durMin date = []) :=
  ⟨fun env cfg durMin t nm svc ha hc =>
      create_booking_commit_fail env cfg durMin t nm svc ha hc,
   dictGet_calendarError_error, by decide,
   fun env cfg durMin date h => cal_get_uninit env cfg durMin date h,
   fun env cfg durMin date h => cal_get_read_fail env cfg durMin date h⟩

theorem c9_witness :
    BookingManager.create_booking ⟨0, true, fun _ _ => some [], fun _ => none⟩
      ⟨[(9, 0)], [(18, 0)]⟩ 60 32400 "Customer" "Haircut" = (calendarErrorDict, [32400])
    ∧ CalendarService.get_available_slots ⟨0, false, fun _ _ => none, fun _ => none⟩
      ⟨[(9, 0)], [(18, 0)]⟩ 60 0 = [] := by
  constructor
  · refine c9_error_discrimination.1 ⟨0, true, fun _ _ => some [], fun _ => none⟩
      ⟨[(9, 0)], [(18, 0)]⟩ 60 32400 "Customer" "Haircut" ?_ (by rfl)
    rw [show dayStartOf 32400 = 0 by decide, single_block_slots_concrete]
    decide
  · exact c9_error_discrimination.2.2.2.1 ⟨0, false, fun _ _ => none, fun _ => none⟩
      ⟨[(9, 0)], [(18, 0)]⟩ 60 0 rfl

/-- Claim C10: the slot set create_booking recomputes during re-validation
equals the untruncated per-day slot set the discovery-time availability
path computes for the same day with the same configuration, duration and
busy source, and the accept decision is determined by that set (not by the
truncated top-5 view). -/
theorem c10_revalidation_equals_discovery (env : Env) (cfg : HoursConfig) (durMin : Nat)
    (d t : Int) (nm svc : String) (h : dayIndex d = dayIndex t) :
    CalendarService.get_available_slots env cfg durMin (dayStartOf t) =
      CalendarService.get_available_slots env cfg durMin d
    ∧ ((BookingManager.create_booking env cfg durMin t nm svc).2 = [t] ↔
        (CalendarService.get_available_slots env cfg durMin d).any
          (fun slot => decide ((slot - t).natAbs < 60)) = true) := by
  have he : CalendarService.get_available_slots env cfg durMin (dayStartOf t) =
      CalendarService.get_available_slots env cfg durMin d := by
    rw [dayStartOf_eq_of_dayIndex_eq t d h.symm]
    exact cal_get_day_normal env cfg durMin d
  refine ⟨he, ?_⟩
  rw [← he]
  exact create_booking_commits_iff env cfg durMin t nm svc

theorem c10_witness :
    CalendarService.get_available_slots ⟨0, false, fun _ _ => none, fun _ => none⟩
      ⟨[(9, 0)], [(18, 0)]⟩ 60 (dayStartOf 200) =
      CalendarService.get_available_slots ⟨0, false, fun _ _ => none, fun _ => none⟩
        ⟨[(9, 0)], [(18, 0)]⟩ 60 100 :=
  (c10_revalidation_equals_discovery ⟨0, false, fun _ _ => none, fun _ => none⟩
    ⟨[(9, 0)], [(18, 0)]⟩ 60 100 200 "Customer" "Haircut" (by decide)).1
